import Mathlib

/-!
Verification of the Gmail MCP adapter (Python repository `redazzo/mcp`).

We shallowly embed the data model and the operations of the repository:
the header/metadata formatter and MIME walker of `gmail/utils.py` (and the
identical copies in `gmail_server.py`), the identifier normaliser, the MCP
tool and resource operations of `gmail/mcp/tools.py` and
`gmail/mcp/resources.py`, the CLI subcommands of `gmail_cli.py`, and the
credential lifecycle of `gmail/auth.py` and `gmail_server.py`.

External collaborators (the Gmail HTTP service, the base64url decoder of
the Python standard library, the interactive OAuth flow) are modelled as
oracle parameters: functions supplied to the embedded operation.  Python
exceptions become `Except` values; Python `print` calls become a list of
printed lines.
-/

/-- One entry of a message payload's header list (`{"name": ..., "value": ...}`). -/
structure Header where
  name : String
  value : String
deriving DecidableEq, Repr

/-- The `body` object of a MIME part.  `data` is `none` when the `data` key is
absent or `None` in the JSON (both falsy in Python). -/
structure MsgBody where
  data : Option String
deriving DecidableEq, Repr

/-- A node of the MIME payload tree: `{mimeType, headers, body, parts}`.
`mimeType = none` models an absent key; `body = none` models an absent or
empty (hence falsy) body object; `parts` is the child list. -/
inductive MimePart where
  | mk (mimeType : Option String) (headers : List Header) (body : Option MsgBody)
       (parts : List MimePart)

def MimePart.mimeType : MimePart → Option String
  | .mk m _ _ _ => m

def MimePart.headers : MimePart → List Header
  | .mk _ h _ _ => h

def MimePart.body : MimePart → Option MsgBody
  | .mk _ _ b _ => b

def MimePart.parts : MimePart → List MimePart
  | .mk _ _ _ p => p

/-- A raw Gmail API message object, restricted to the keys the repository
reads.  `labelIds` and `snippet` are read with `.get` defaults in the code,
so they are optional here; `id`, `threadId` and `payload` are read with
mandatory indexing. -/
structure Msg where
  id : String
  threadId : String
  labelIds : Option (List String)
  snippet : Option String
  payload : MimePart

/-- A Gmail label object (`{"id": ..., "name": ...}`). -/
structure Label where
  id : String
  name : String
deriving DecidableEq, Repr

/-- A minimal message reference as returned by `messages.list` (only the id
is used by the repository). -/
structure MsgRef where
  id : String
deriving DecidableEq, Repr

/-- A provider / library exception, carrying its rendered message (`str(e)`). -/
structure Err where
  msg : String
deriving DecidableEq, Repr

/-! ### Python dict built by comprehension

`format_email_metadata` builds `{h["name"]: h["value"] for h in headers}`:
insertion in list order, a later duplicate key overwriting the earlier value.
We model the dict as an association list with overwriting insert. -/

/-- Insert into a Python dict: overwrite the value if the key is present,
otherwise append the binding. -/
def pyDictInsert : List (String × String) → String → String → List (String × String)
  | [], k, v => [(k, v)]
  | (k₀, v₀) :: rest, k, v =>
      if k₀ = k then (k₀, v) :: rest else (k₀, v₀) :: pyDictInsert rest k v

/-- The dict comprehension `{h["name"]: h["value"] for h in hs}`. -/
def buildHeaderDict (hs : List Header) : List (String × String) :=
  hs.foldl (fun d h => pyDictInsert d h.name h.value) []

/-- Python `d.get(k)`: the value bound to `k`, if any. -/
def dictGet (d : List (String × String)) (k : String) : Option String :=
  (d.find? (fun p => p.1 = k)).map (fun p => p.2)

/-- Result record of `format_email_metadata`. -/
structure EmailMeta where
  id : String
  threadId : String
  labelIds : List String
  snippet : String
  fromAddr : String
  toAddr : String
  subject : String
  date : String
deriving DecidableEq, Repr

/-- `format_email_metadata` of `gmail/utils.py` (and, textually identical,
of `gmail_server.py`): build the header dict, then read the fields, the
four header fields with the empty string as default. -/
def format_email_metadata (m : Msg) : EmailMeta :=
  let headers := buildHeaderDict m.payload.headers
  { id := m.id
    threadId := m.threadId
    labelIds := m.labelIds.getD []
    snippet := m.snippet.getD ""
    fromAddr := (dictGet headers ("From")).getD ""
    toAddr := (dictGet headers ("To")).getD ""
    subject := (dictGet headers ("Subject")).getD ""
    date := (dictGet headers ("Date")).getD "" }

/-- Spec-side description of the dict lookup: the value of the LAST header
with the given name, if any (a later duplicate overwrites an earlier one). -/
def lastHeaderValue (hs : List Header) (k : String) : Option String :=
  (hs.reverse.find? (fun h => h.name = k)).map (fun h => h.value)

theorem dictGet_pyDictInsert (d : List (String × String)) (k k₀ v₀ : String) :
    dictGet (pyDictInsert d k₀ v₀) k = if k₀ = k then some v₀ else dictGet d k := by
  induction d with
  | nil =>
    by_cases h : k₀ = k <;> simp [pyDictInsert, dictGet, List.find?, h]
  | cons p rest ih =>
    rcases p with ⟨k₁, v₁⟩
    by_cases h1 : k₁ = k₀
    · subst h1
      by_cases h : k₁ = k <;> simp [pyDictInsert, dictGet, List.find?, h]
    · by_cases h : k₁ = k
      · subst h
        have : ¬ k₀ = k₁ := fun hh => h1 hh.symm
        simp [pyDictInsert, dictGet, List.find?, h1, this]
      · simp only [pyDictInsert, if_neg h1, dictGet, List.find?, decide_eq_false h,
          decide_eq_true_eq]
        exact ih

theorem lastHeaderValue_cons (h : Header) (t : List Header) (k : String) :
    lastHeaderValue (h :: t) k =
      match lastHeaderValue t k with
      | some v => some v
      | none => if h.name = k then some h.value else none := by
  unfold lastHeaderValue
  simp only [List.reverse_cons, List.find?_append]
  rcases hf : (t.reverse.find? (fun x => x.name = k)) with _ | x
  · simp [hf, List.find?]
    by_cases he : h.name = k <;> simp [he]
  · simp [hf]

theorem dictGet_buildHeaderDict (hs : List Header) (k : String) :
    dictGet (buildHeaderDict hs) k = lastHeaderValue hs k := by
  suffices h : ∀ d, dictGet (hs.foldl (fun d h => pyDictInsert d h.name h.value) d) k =
      match lastHeaderValue hs k with
      | some v => some v
      | none => dictGet d k by
    have := h []
    unfold buildHeaderDict
    rw [this]
    rcases hv : lastHeaderValue hs k with _ | v <;> simp [dictGet, List.find?]
  induction hs with
  | nil => intro d; simp [lastHeaderValue, List.find?]
  | cons hd t ih =>
    intro d
    simp only [List.foldl]
    rw [ih (pyDictInsert d hd.name hd.value), lastHeaderValue_cons]
    rcases hv : lastHeaderValue t k with _ | v
    · simp only
      rw [dictGet_pyDictInsert]
      by_cases he : hd.name = k <;> simp [he]
    · simp

/-! ### The MIME walker `get_message_content` -/

mutual
/-- Size of a part tree, for termination of the worklist loop. -/
def MimePart.weight : MimePart → Nat
  | .mk _ _ _ ps => 1 + MimePart.weightList ps

/-- Summed size of a list of part trees. -/
def MimePart.weightList : List MimePart → Nat
  | [] => 0
  | p :: rest => MimePart.weight p + MimePart.weightList rest
end

theorem MimePart.weightList_append (a b : List MimePart) :
    MimePart.weightList (a ++ b) = MimePart.weightList a + MimePart.weightList b := by
  induction a with
  | nil => simp [MimePart.weightList]
  | cons p rest ih => simp [MimePart.weightList, ih]; omega

theorem MimePart.weight_pos (p : MimePart) : 0 < p.weight := by
  cases p with
  | mk m h b ps => simp [MimePart.weight]

theorem MimePart.weightList_parts_lt (p : MimePart) :
    MimePart.weightList p.parts < p.weight := by
  cases p with
  | mk m h b ps => simp [MimePart.weight, MimePart.parts]

/-- The text contributed by one processed node: Python condition
`part.get("mimeType") == "text/plain" and part.get("body") and
part["body"].get("data")` (the guard `d ≠ ""` is Python's truthiness of the
data string), then `base64.urlsafe_b64decode(data).decode("utf-8")`,
modelled by the oracle `decode`. -/
def partText (decode : String → String) (p : MimePart) : String :=
  if p.mimeType = some "text/plain" then
    match p.body with
    | some b =>
        match b.data with
        | some d => if d = "" then "" else decode d
        | none => ""
    | none => ""
  else ""

/-- The worklist loop of `get_message_content`: pop the front, append the
children (`parts.extend`) to the back, accumulate the node's text.
(Python skips the extend when the child list is falsy, i.e. empty;
appending an empty list is the identity, so the same loop results.) -/
def walkContent (decode : String → String) : List MimePart → String
  | [] => ""
  | p :: rest => partText decode p ++ walkContent decode (rest ++ p.parts)
termination_by l => MimePart.weightList l
decreasing_by
  simp [MimePart.weightList_append, MimePart.weightList]
  have := MimePart.weightList_parts_lt p
  omega

/-- `get_message_content` of `gmail/utils.py` (and of `gmail_server.py`):
seed the worklist with the payload and run the loop. -/
def get_message_content (decode : String → String) (m : Msg) : String :=
  walkContent decode [m.payload]

/-! ### Spec-side description of the walk

The specification describes `plainTextContent` as: enumerate the nodes of
the payload tree breadth-first (FIFO worklist seeded with the root, each
node's children appended in listed order), keep exactly the nodes whose
MIME type is `text/plain` and whose body carries inline data, and
concatenate their decoded bodies in traversal order.  The following
definitions state that description directly, to be compared with the
embedded loop. -/

/-- Breadth-first enumeration of the nodes reachable from a FIFO worklist:
the front node comes first, its children join the back of the queue. -/
def bfsNodes : List MimePart → List MimePart
  | [] => []
  | p :: rest => p :: bfsNodes (rest ++ p.parts)
termination_by l => MimePart.weightList l
decreasing_by
  simp [MimePart.weightList_append, MimePart.weightList]
  have := MimePart.weightList_parts_lt p
  omega

/-- The inline data of a node that the spec says contributes: MIME type
exactly `text/plain` and a body carrying (truthy) inline data. -/
def nodeData (p : MimePart) : Option String :=
  if p.mimeType = some "text/plain" then
    match p.body with
    | some b =>
        match b.data with
        | some d => if d = "" then none else some d
        | none => none
    | none => none
  else none

/-- The inline-data strings of the contributing nodes, in breadth-first
traversal order, starting from a worklist. -/
def plainDataList (l : List MimePart) : List String :=
  (bfsNodes l).filterMap nodeData

/-- The contributing data of the whole message tree, breadth-first from the
payload root. -/
def plainData (m : Msg) : List String :=
  plainDataList [m.payload]

theorem string_foldl_append (l : List String) (x : String) :
    List.foldl (fun r s => r ++ s) x l = x ++ List.foldl (fun r s => r ++ s) "" l := by
  induction l generalizing x with
  | nil => simp
  | cons a t ih =>
    simp only [List.foldl]
    rw [ih (x ++ a), ih ("" ++ a)]
    simp [String.append_assoc]

theorem string_join_cons (a : String) (l : List String) :
    String.join (a :: l) = a ++ String.join l := by
  show List.foldl (fun r s => r ++ s) ("" ++ a) l = _
  rw [string_foldl_append l ("" ++ a)]
  simp [String.join]

theorem partText_eq_nodeData (decode : String → String) (p : MimePart) :
    partText decode p = ((nodeData p).map decode).getD "" := by
  unfold partText nodeData
  rcases h : p.mimeType with _ | mt
  · simp [h]
  · by_cases hmt : mt = "text/plain"
    · subst hmt
      rcases hb : p.body with _ | b
      · simp [h, hb]
      · rcases hd : b.data with _ | d
        · simp [h, hb, hd]
        · by_cases he : d = "" <;> simp [h, hb, hd, he]
    · simp [h, hmt]

theorem walkContent_eq_join (decode : String → String) (l : List MimePart) :
    walkContent decode l = String.join ((plainDataList l).map decode) := by
  generalize hn : MimePart.weightList l = n
  induction n using Nat.strong_induction_on generalizing l with
  | _ n ih =>
    cases l with
    | nil => simp [walkContent, plainDataList, bfsNodes, String.join]
    | cons p rest =>
      have hlt : MimePart.weightList (rest ++ p.parts) < n := by
        rw [← hn]
        simp [MimePart.weightList_append, MimePart.weightList]
        have := MimePart.weightList_parts_lt p
        omega
      have hrec := ih _ hlt (rest ++ p.parts) rfl
      rw [walkContent, hrec, partText_eq_nodeData]
      show _ = String.join ((plainDataList (p :: rest)).map decode)
      unfold plainDataList
      rw [bfsNodes]
      rcases h : nodeData p with _ | d
      · simp [List.filterMap, h, plainDataList]
      · simp [List.filterMap, h, plainDataList, string_join_cons]

/-- Python `str.startswith`, modelled on the character list (the builtin
is external to the repository). -/
def strStartsWith (s p : String) : Bool :=
  p.data.isPrefixOf s.data

/-- Python `str.lower`, modelled on the character list (the builtin is
external to the repository). -/
def strLower (s : String) : String :=
  ⟨s.data.map Char.toLower⟩

/-- `normalize_message_id` of `gmail/utils.py`: strip one leading `id_`
(`message_id_str[3:]` when `message_id_str.startswith("id_")`). -/
def normalize_message_id (message_id : String) : String :=
  if strStartsWith message_id ("id_") then message_id.drop 3 else message_id

/-! ### MCP tool operations (`gmail/mcp/tools.py`)

Each Gmail API call the operation issues is an oracle parameter; its
`Except` result is the call's outcome.  An operation wrapped in
`try/except` in the source returns `String`; an operation without a
wrapper returns `Except Err String`, the `.error` case being the Python
exception flying past the adapter boundary. -/

/-- The label line `f"- {label['name']} (ID: {label['id']})"` used by
`get_labels_tool` (and `get_labels`, and the CLI `labels` subcommand). -/
def formatLabelLine (l : Label) : String :=
  "- " ++ l.name ++ " (ID: " ++ l.id ++ ")"

/-- The per-message block of `get_inbox_messages` (trailing newline as in
the source f-string). -/
def inboxBlock (meta : EmailMeta) : String :=
  "ID: " ++ meta.id ++ "\n" ++ "From: " ++ meta.fromAddr ++ "\n" ++
  "Subject: " ++ meta.subject ++ "\n" ++ "Date: " ++ meta.date ++ "\n" ++
  "Snippet: " ++ meta.snippet ++ "\n"

/-- The per-message block of `search_emails_tool` (no trailing newline). -/
def searchBlock (meta : EmailMeta) : String :=
  "ID: " ++ meta.id ++ "\n" ++ "From: " ++ meta.fromAddr ++ "\n" ++
  "Subject: " ++ meta.subject ++ "\n" ++ "Date: " ++ meta.date ++ "\n" ++
  "Snippet: " ++ meta.snippet

/-- The message view shared by `get_message_content_tool` (tools.py) and
`get_message` (resources.py and gmail_server.py): headers then a blank
line then the plain-text content. -/
def messageView (meta : EmailMeta) (content : String) : String :=
  "From: " ++ meta.fromAddr ++ "\n" ++ "To: " ++ meta.toAddr ++ "\n" ++
  "Subject: " ++ meta.subject ++ "\n" ++ "Date: " ++ meta.date ++ "\n\n" ++
  content

namespace GmailTools

/-- `GmailTools.get_labels_tool`: list the labels (NO try/except in the
source, so a failing call propagates), then format them. -/
def get_labels_tool (listLabels : Except Err (List Label)) : Except Err String :=
  match listLabels with
  | .error e => .error e
  | .ok labels =>
      if labels.isEmpty then .ok ("No labels found.")
      else .ok ("Gmail Labels:\n" ++ String.intercalate ("\n") (labels.map formatLabelLine))

/-- The body of `get_inbox_messages` after the `max_results` validation:
list the inbox references, fetch and format each message.  No try/except:
a failing call propagates. -/
def get_inbox_messages_core (listInbox : Int → Except Err (List MsgRef))
    (getMsg : String → Except Err Msg) (max_results : Int) : Except Err String := do
  let msgs ← listInbox max_results
  if msgs.isEmpty then
    return ("No messages found in inbox.")
  let blocks ← msgs.mapM (fun r => do
    let m ← getMsg r.id
    pure (inboxBlock (format_email_metadata m)))
  return ("Recent Inbox Messages:\n\n" ++ String.intercalate ("\n---\n") blocks)

/-- `GmailTools.get_inbox_messages`: clamp `max_results` to `[1, 50]`
(`max_results = min(max(1, max_results), 50)`), then run the body. -/
def get_inbox_messages (listInbox : Int → Except Err (List MsgRef))
    (getMsg : String → Except Err Msg) (max_results : Int) : Except Err String :=
  get_inbox_messages_core listInbox getMsg (min (max 1 max_results) 50)

/-- `GmailTools.get_message_content_tool`: wrapped in try/except — every
exception is caught and rendered as an error string.  The message id is
normalised before the API call. -/
def get_message_content_tool (getMsg : String → Except Err Msg)
    (decode : String → String) (message_id : String) : String :=
  match getMsg (normalize_message_id message_id) with
  | .ok m => messageView (format_email_metadata m) (get_message_content decode m)
  | .error e => "Error retrieving message: " ++ e.msg

/-- The body of `search_emails_tool` after the `max_results` validation.
No try/except: a failing call propagates. -/
def search_emails_core (listMsgs : String → Int → Except Err (List MsgRef))
    (getMsg : String → Except Err Msg) (query : String) (max_results : Int) :
    Except Err String := do
  let msgs ← listMsgs query max_results
  if msgs.isEmpty then
    return ("No messages found matching: " ++ query)
  let blocks ← msgs.mapM (fun r => do
    let m ← getMsg r.id
    pure (searchBlock (format_email_metadata m)))
  return ("Search Results for '" ++ query ++ "':\n\n" ++
    String.intercalate ("\n---\n") blocks)

/-- `GmailTools.search_emails_tool`: clamp `max_results` to `[1, 100]`,
then run the body. -/
def search_emails_tool (listMsgs : String → Int → Except Err (List MsgRef))
    (getMsg : String → Except Err Msg) (query : String) (max_results : Int) :
    Except Err String :=
  search_emails_core listMsgs getMsg query (min (max 1 max_results) 100)

/-- The final step of `add_label_to_message`: modify the message, inside
its own try/except. -/
def applyModify (modifyMsg : String → String → Except Err Unit)
    (mid label_name lid : String) : String :=
  match modifyMsg mid lid with
  | .ok _ => "Label '" ++ label_name ++ "' added to message " ++ mid
  | .error e => "Error adding label to message: " ++ e.msg

/-- `GmailTools.add_label_to_message`: normalise the id, list the labels
(NO try/except around the list call: a failing list propagates), find the
first label whose lowercased name equals the lowercased argument
(`label['name'].lower() == label_name.lower()`, first match via `break`),
auto-create the label when none matched (`if not label_id`, which in
Python also fires on an empty id string), then modify the message. -/
def add_label_to_message (listLabels : Except Err (List Label))
    (createLabel : String → Except Err Label)
    (modifyMsg : String → String → Except Err Unit)
    (message_id label_name : String) : Except Err String := do
  let mid := normalize_message_id message_id
  let labels ← listLabels
  let label_id := ((labels.find? (fun l => strLower l.name = strLower label_name)).map
    (fun l => l.id)).getD ""
  if label_id = "" then
    match createLabel label_name with
    | .ok created => pure (applyModify modifyMsg mid label_name created.id)
    | .error e => pure ("Error creating label: " ++ e.msg)
  else
    pure (applyModify modifyMsg mid label_name label_id)

end GmailTools

namespace GmailResources

/-- `GmailResources.get_message` (`gmail/mcp/resources.py`): NO try/except
anywhere in the resource — a failing call propagates.  The id is
normalised before the API call. -/
def get_message (getMsg : String → Except Err Msg) (decode : String → String)
    (message_id : String) : Except Err String := do
  let m ← getMsg (normalize_message_id message_id)
  pure (messageView (format_email_metadata m) (get_message_content decode m))

end GmailResources

namespace GmailCli

/-- The lines printed for one message by the CLI `inbox` and `search`
subcommands. -/
def cliMsgLines (m : Msg) : List String :=
  let meta := format_email_metadata m
  ["\nID: " ++ meta.id, "From: " ++ meta.fromAddr, "Subject: " ++ meta.subject,
   "Date: " ++ meta.date, "Snippet: " ++ meta.snippet, "---"]

/-- `list_inbox` of `gmail_cli.py`: the whole body is inside try/except;
the requested `max_results` is passed to the list call UNCHANGED (no
clamping in the CLI).  The result is the list of printed lines. -/
def list_inbox (listInbox : Int → Except Err (List MsgRef))
    (getMsg : String → Except Err Msg) (max_results : Int) : List String :=
  match (do
      let msgs ← listInbox max_results
      if msgs.isEmpty then
        pure (["No messages found in inbox."])
      else do
        let blocks ← msgs.mapM (fun r => do
          let m ← getMsg r.id
          pure (cliMsgLines m))
        pure (("Recent Inbox Messages (showing " ++ toString msgs.length ++ " of " ++
          toString max_results ++ " requested):") :: blocks.flatten)
    : Except Err (List String)) with
  | .ok lines => lines
  | .error e => ["Error listing inbox: " ++ e.msg]

/-- `get_message` of `gmail_cli.py`: the message id is passed to the API
call UNCHANGED (the CLI never normalises identifiers); the whole body is
inside try/except. -/
def get_message (getMsg : String → Except Err Msg) (decode : String → String)
    (message_id : String) : List String :=
  match getMsg message_id with
  | .ok m =>
      let meta := format_email_metadata m
      ["From: " ++ meta.fromAddr, "To: " ++ meta.toAddr, "Subject: " ++ meta.subject,
       "Date: " ++ meta.date, "\nContent:", get_message_content decode m]
  | .error e => ["Error getting message: " ++ e.msg]

end GmailCli

/-! ### Credential lifecycle (`gmail/auth.py` and `gmail_server.py`)

The google-auth `Credentials` object, the `Request()` refresh transport and
the `InstalledAppFlow` interactive flow are external collaborators.  A
refresh attempt is an oracle `Cred → RefreshOutcome` (success with the
refreshed credential, the provider's distinct `RefreshError`, or any other
exception); the interactive flow is an oracle `Except AuthErr Cred`.  The
persisted token record (`token.json`) is the single field of `AuthState`;
both `get_credentials` variants return the outcome together with the final
state of that record. -/

/-- An OAuth credential as google-auth models it.  `valid` is derived:
a token is present and not expired. -/
structure Cred where
  token : Option String
  expired : Bool
  refreshToken : Option String
deriving DecidableEq, Repr

/-- google-auth `creds.valid`: token present and not expired. -/
def Cred.valid (c : Cred) : Bool :=
  c.token.isSome && !c.expired

/-- Python truthiness of `creds.refresh_token` (a non-empty string). -/
def Cred.hasRefreshToken (c : Cred) : Bool :=
  match c.refreshToken with
  | some s => s != ""
  | none => false

/-- Outcome of `creds.refresh(Request())`: success with the refreshed
credential, the provider's `RefreshError`, or any other exception. -/
inductive RefreshOutcome where
  | ok (c : Cred)
  | refreshError (msg : String)
  | otherError (msg : String)
deriving DecidableEq, Repr

/-- An exception propagating out of the credential code. -/
inductive AuthErr where
  | refreshRejected (msg : String)
  | exn (msg : String)
deriving DecidableEq, Repr

/-- The on-disk state: the persisted token record, if the file exists. -/
structure AuthState where
  tokenFile : Option Cred
deriving DecidableEq, Repr

namespace GmailClient

/-- `GmailClient._safe_refresh_token` of `gmail/auth.py`: try the refresh;
on `RefreshError` delete the token file (`os.remove`, guarded by
existence — removing an absent record is the identity here) and run the
interactive flow; any other exception propagates unchanged. -/
def safe_refresh_token (refresh : Cred → RefreshOutcome) (flow : Except AuthErr Cred)
    (creds : Cred) (st : AuthState) : (Except AuthErr Cred) × AuthState :=
  match refresh creds with
  | .ok c => (.ok c, st)
  | .refreshError _ =>
      let st := { st with tokenFile := none }
      match flow with
      | .ok c => (.ok c, st)
      | .error e => (.error e, st)
  | .otherError m => (.error (.exn m), st)

/-- Run the interactive flow and, on success, persist its credential;
the write after the `if` branch of both `get_credentials` variants. -/
def flowAndWrite (flow : Except AuthErr Cred) (st : AuthState) :
    (Except AuthErr Cred) × AuthState :=
  match flow with
  | .ok c => (.ok c, { st with tokenFile := some c })
  | .error e => (.error e, st)

/-- `GmailClient.get_credentials` of `gmail/auth.py`: load the stored
credential if the token file exists; if absent or invalid, refresh via
`_safe_refresh_token` when expired and refreshable, otherwise run the
interactive flow; persist whatever the branch produced; a valid stored
credential is returned unchanged with no write. -/
def get_credentials (refresh : Cred → RefreshOutcome) (flow : Except AuthErr Cred)
    (st : AuthState) : (Except AuthErr Cred) × AuthState :=
  match st.tokenFile with
  | some c =>
      if c.valid then (.ok c, st)
      else if c.expired && c.hasRefreshToken then
        match safe_refresh_token refresh flow c st with
        | (.ok c', st') => (.ok c', { st' with tokenFile := some c' })
        | (.error e, st') => (.error e, st')
      else flowAndWrite flow st
  | none => flowAndWrite flow st

end GmailClient

namespace GmailServer

/-- `get_credentials` of `gmail_server.py`: same shape, but the refresh is
the bare `creds.refresh(Request())` with NO exception handling — every
refresh failure (the provider's `RefreshError` included) propagates to the
caller and the token file is not touched. -/
def get_credentials (refresh : Cred → RefreshOutcome) (flow : Except AuthErr Cred)
    (st : AuthState) : (Except AuthErr Cred) × AuthState :=
  match st.tokenFile with
  | some c =>
      if c.valid then (.ok c, st)
      else if c.expired && c.hasRefreshToken then
        match refresh c with
        | .ok c' => (.ok c', { st with tokenFile := some c' })
        | .refreshError m => (.error (.refreshRejected m), st)
        | .otherError m => (.error (.exn m), st)
      else GmailClient.flowAndWrite flow st
  | none => GmailClient.flowAndWrite flow st

end GmailServer

/-! ## Claims -/

theorem lastHeaderValue_eq_none (hs : List Header) (k : String)
    (h : ∀ x ∈ hs, x.name ≠ k) : lastHeaderValue hs k = none := by
  unfold lastHeaderValue
  rw [List.find?_eq_none.mpr]
  · rfl
  · intro x hx
    simp only [decide_eq_true_eq]
    exact h x (List.mem_reverse.mp hx)

/-- C5: `normalize_message_id` strips exactly one leading `id_` marker when
the input starts with `id_` (the first three characters are dropped) and
returns the input unchanged otherwise; in particular
`normalize("id_ABC123") = "ABC123"`, `normalize("ABC123") = "ABC123"` and
`normalize("id_id_X") = "id_X"`. -/
theorem C5_normalize_strips_one (s : String) :
    (strStartsWith s ("id_") = true → normalize_message_id s = s.drop 3) ∧
    (strStartsWith s ("id_") = false → normalize_message_id s = s) ∧
    normalize_message_id "id_ABC123" = "ABC123" ∧
    normalize_message_id "ABC123" = "ABC123" ∧
    normalize_message_id "id_id_X" = "id_X" := by
  refine ⟨fun h => ?_, fun h => ?_, by decide, by decide, by decide⟩
  · simp [normalize_message_id, h]
  · simp [normalize_message_id, h]

theorem C5_witness :
    (strStartsWith "id_Q" ("id_") = true ∧ normalize_message_id "id_Q" = "id_Q".drop 3) ∧
    (strStartsWith "Q" ("id_") = false ∧ normalize_message_id "Q" = "Q") :=
  ⟨⟨by decide, (C5_normalize_strips_one "id_Q").1 (by decide)⟩,
   ⟨by decide, (C5_normalize_strips_one "Q").2.1 (by decide)⟩⟩

/-- C4: `format_email_metadata` reads the `From`, `To`, `Subject` and
`Date` fields by exact, case-sensitive header-name lookup (the field is
the value of the last header whose name equals the exact string), and
every one of the four that is absent from the header list yields the empty
string, with no failure possible (the embedded formatter is total). -/
theorem C4_metadata_header_lookup (m : Msg) :
    ((format_email_metadata m).fromAddr =
        ((lastHeaderValue m.payload.headers ("From")).getD "") ∧
     (format_email_metadata m).toAddr =
        ((lastHeaderValue m.payload.headers ("To")).getD "") ∧
     (format_email_metadata m).subject =
        ((lastHeaderValue m.payload.headers ("Subject")).getD "") ∧
     (format_email_metadata m).date =
        ((lastHeaderValue m.payload.headers ("Date")).getD "")) ∧
    ((∀ x ∈ m.payload.headers, x.name ≠ "From") →
        (format_email_metadata m).fromAddr = "") ∧
    ((∀ x ∈ m.payload.headers, x.name ≠ "To") →
        (format_email_metadata m).toAddr = "") ∧
    ((∀ x ∈ m.payload.headers, x.name ≠ "Subject") →
        (format_email_metadata m).subject = "") ∧
    ((∀ x ∈ m.payload.headers, x.name ≠ "Date") →
        (format_email_metadata m).date = "") := by
  refine ⟨⟨?_, ?_, ?_, ?_⟩, fun h => ?_, fun h => ?_, fun h => ?_, fun h => ?_⟩
  case refine_1 => simp [format_email_metadata, dictGet_buildHeaderDict]
  case refine_2 => simp [format_email_metadata, dictGet_buildHeaderDict]
  case refine_3 => simp [format_email_metadata, dictGet_buildHeaderDict]
  case refine_4 => simp [format_email_metadata, dictGet_buildHeaderDict]
  all_goals simp [format_email_metadata, dictGet_buildHeaderDict,
    lastHeaderValue_eq_none _ _ h]

theorem C4_witness :
    (∀ x ∈ ([⟨"from", "lower@x.org"⟩, ⟨"Subject", "s"⟩] : List Header),
        x.name ≠ "From") ∧
    (format_email_metadata
        { id := "i", threadId := "t", labelIds := none, snippet := none,
          payload := .mk none [⟨"from", "lower@x.org"⟩, ⟨"Subject", "s"⟩] none [] }).fromAddr
      = "" :=
  ⟨by decide,
   (C4_metadata_header_lookup
      { id := "i", threadId := "t", labelIds := none, snippet := none,
        payload := .mk none [⟨"from", "lower@x.org"⟩, ⟨"Subject", "s"⟩] none [] }).2.1
     (by decide)⟩

/-- C10: when the payload's header list holds two or more entries with the
same name, the field `format_email_metadata` returns for that name is the
value of the LAST occurrence in list order (the dict comprehension
overwrites earlier bindings); shown for each of the four extracted fields,
and on a concrete message with two `Subject` headers. -/
theorem C10_duplicate_headers_last_wins (m : Msg) :
    ((2 ≤ (m.payload.headers.filter (fun x => x.name = "From")).length →
        (format_email_metadata m).fromAddr =
          ((lastHeaderValue m.payload.headers ("From")).getD "")) ∧
     (2 ≤ (m.payload.headers.filter (fun x => x.name = "To")).length →
        (format_email_metadata m).toAddr =
          ((lastHeaderValue m.payload.headers ("To")).getD "")) ∧
     (2 ≤ (m.payload.headers.filter (fun x => x.name = "Subject")).length →
        (format_email_metadata m).subject =
          ((lastHeaderValue m.payload.headers ("Subject")).getD "")) ∧
     (2 ≤ (m.payload.headers.filter (fun x => x.name = "Date")).length →
        (format_email_metadata m).date =
          ((lastHeaderValue m.payload.headers ("Date")).getD ""))) ∧
    (format_email_metadata
        { id := "i", threadId := "t", labelIds := none, snippet := none,
          payload := .mk none [⟨"Subject", "first"⟩, ⟨"Subject", "second"⟩] none [] }).subject
      = "second" := by
  refine ⟨⟨fun _ => ?_, fun _ => ?_, fun _ => ?_, fun _ => ?_⟩, by decide⟩ <;>
    simp [format_email_metadata, dictGet_buildHeaderDict]

theorem C10_witness :
    (2 ≤ ((([⟨"Subject", "first"⟩, ⟨"Subject", "second"⟩] : List Header)).filter
        (fun x => x.name = "Subject")).length) ∧
    (format_email_metadata
        { id := "i", threadId := "t", labelIds := none, snippet := none,
          payload := .mk none [⟨"Subject", "first"⟩, ⟨"Subject", "second"⟩] none [] }).subject
      = ((lastHeaderValue [⟨"Subject", "first"⟩, ⟨"Subject", "second"⟩] ("Subject")).getD "") :=
  ⟨by decide,
   (C10_duplicate_headers_last_wins
      { id := "i", threadId := "t", labelIds := none, snippet := none,
        payload := .mk none [⟨"Subject", "first"⟩, ⟨"Subject", "second"⟩] none [] }).1.2.2.1
     (by decide)⟩

/-- C2: `get_message_content` returns exactly the concatenation, in
breadth-first traversal order (FIFO worklist seeded with the root, the
root processed before its children, children appended in listed order), of
the decoded bodies of precisely the nodes whose MIME type is `text/plain`
and whose body carries inline data; and when no such node exists the
result is the empty string (the embedded function is total, so no error
can occur). -/
theorem C2_plain_text_bfs (decode : String → String) (m : Msg) :
    get_message_content decode m = String.join ((plainData m).map decode) ∧
    (plainData m = [] → get_message_content decode m = "") := by
  have h := walkContent_eq_join decode [m.payload]
  refine ⟨h, fun hz => ?_⟩
  show walkContent decode [m.payload] = ""
  rw [h]
  have hz' : plainDataList [m.payload] = [] := hz
  simp [hz', String.join]

theorem C2_witness :
    plainData
      { id := "i", threadId := "t", labelIds := none, snippet := none,
        payload :=
          .mk (some "text/html") [] (some ⟨some "aGk="⟩) [] } = [] ∧
    get_message_content (fun d => d)
      { id := "i", threadId := "t", labelIds := none, snippet := none,
        payload :=
          .mk (some "text/html") [] (some ⟨some "aGk="⟩) [] } = "" := by
  have hz : plainData
      { id := "i", threadId := "t", labelIds := none, snippet := none,
        payload :=
          (.mk (some "text/html") [] (some ⟨some "aGk="⟩) [] : MimePart) } = [] := by
    simp [plainData, plainDataList, bfsNodes, nodeData, MimePart.parts,
      MimePart.mimeType, MimePart.body]
  exact ⟨hz, (C2_plain_text_bfs (fun d => d) _).2 hz⟩

/-- C3 fails as stated: `get_labels_tool` of `gmail/mcp/tools.py` has no
try/except, so a provider error raised by the label-list call propagates
past the adapter boundary instead of being returned as a descriptive
string. -/
theorem C3_counterexample :
    GmailTools.get_labels_tool (.error ⟨"HttpError 500"⟩) =
      .error ⟨"HttpError 500"⟩ := by
  rfl

/-- C3 amended: operations whose body is wrapped in try/except
(`get_message_content_tool` here) catch every provider error and return a
descriptive `"Error <doing X>: <message>"` string; but `get_labels_tool`,
`search_emails_tool` (tools.py) and the resource operations
(`get_message` of resources.py here) have no try/except and propagate the
provider error to the caller. -/
theorem C3_amended_error_boundary :
    (∀ (e : Err) (decode : String → String) (mid : String),
       GmailTools.get_message_content_tool (fun _ => .error e) decode mid =
         "Error retrieving message: " ++ e.msg) ∧
    (∀ e : Err, GmailTools.get_labels_tool (.error e) = .error e) ∧
    (∀ (e : Err) (g : String → Except Err Msg) (q : String) (n : Int),
       GmailTools.search_emails_tool (fun _ _ => .error e) g q n = .error e) ∧
    (∀ (e : Err) (decode : String → String) (mid : String),
       GmailResources.get_message (fun _ => .error e) decode mid = .error e) := by
  refine ⟨fun e decode mid => rfl, fun e => rfl, fun e g q n => rfl,
    fun e decode mid => rfl⟩

/-- C6 fails as stated: the CLI `message` subcommand passes the raw
identifier to the API call with no normalisation.  An oracle that reflects
the queried identifier into its answer shows the call for `"id_ABC123"`
reaching the API as `"id_ABC123"`, not as
`normalize("id_ABC123") = "ABC123"`. -/
theorem C6_counterexample :
    GmailCli.get_message (fun i => .error ⟨i⟩) (fun d => d) "id_ABC123" =
      ["Error getting message: id_ABC123"] ∧
    normalize_message_id "id_ABC123" = "ABC123" ∧
    ("id_ABC123" : String) ≠ "ABC123" := by
  refine ⟨rfl, by decide, by decide⟩

/-- C6 amended: the MCP tool and resource operations consult the provider
exactly at the normalised identifier (their result depends on the message
oracle only through its value at `normalize(input)`, and a reflecting
oracle shows that identifier reaching the call), while the CLI
subcommands pass the input identifier raw (their result depends on the
oracle only through its value at the unnormalised input). -/
theorem C6_amended_normalization :
    (∀ (g₁ g₂ : String → Except Err Msg) (decode : String → String) (mid : String),
       g₁ (normalize_message_id mid) = g₂ (normalize_message_id mid) →
       GmailTools.get_message_content_tool g₁ decode mid =
         GmailTools.get_message_content_tool g₂ decode mid) ∧
    (∀ (g₁ g₂ : String → Except Err Msg) (decode : String → String) (mid : String),
       g₁ (normalize_message_id mid) = g₂ (normalize_message_id mid) →
       GmailResources.get_message g₁ decode mid =
         GmailResources.get_message g₂ decode mid) ∧
    (∀ (g₁ g₂ : String → Except Err Msg) (decode : String → String) (mid : String),
       g₁ mid = g₂ mid →
       GmailCli.get_message g₁ decode mid = GmailCli.get_message g₂ decode mid) ∧
    (∀ mid : String,
       GmailTools.get_message_content_tool (fun i => .error ⟨i⟩) (fun d => d) mid =
         "Error retrieving message: " ++ normalize_message_id mid) ∧
    (∀ mid : String,
       GmailCli.get_message (fun i => .error ⟨i⟩) (fun d => d) mid =
         ["Error getting message: " ++ mid]) := by
  refine ⟨fun g₁ g₂ decode mid h => ?_, fun g₁ g₂ decode mid h => ?_,
    fun g₁ g₂ decode mid h => ?_, fun mid => rfl, fun mid => rfl⟩
  · simp [GmailTools.get_message_content_tool, h]
  · simp [GmailResources.get_message, h, bind]
  · simp [GmailCli.get_message, h]

theorem C6_witness :
    ((fun i => (.error ⟨i⟩ : Except Err Msg)) (normalize_message_id "id_W") =
       (fun _ => (.error ⟨"W"⟩ : Except Err Msg)) (normalize_message_id "id_W")) ∧
    GmailTools.get_message_content_tool (fun i => .error ⟨i⟩) (fun d => d) "id_W" =
      GmailTools.get_message_content_tool (fun _ => .error ⟨"W"⟩) (fun d => d) "id_W" :=
  ⟨rfl,
   C6_amended_normalization.1 (fun i => .error ⟨i⟩) (fun _ => .error ⟨"W"⟩)
     (fun d => d) "id_W" rfl⟩

/-- C7 fails as stated: the CLI `inbox` subcommand performs no clamping —
a reflecting oracle shows the requested count 500 reaching the list call
as 500, where the claim requires every count-accepting operation to clamp
(here to 50) before the call. -/
theorem C7_counterexample :
    GmailCli.list_inbox (fun k => .error ⟨toString k⟩) (fun _ => .error ⟨""⟩) 500 =
      ["Error listing inbox: 500"] ∧
    min (max 1 (500 : Int)) 50 = 50 ∧
    (500 : Int) ≠ 50 := by
  refine ⟨rfl, by decide, by decide⟩

/-- C7 amended: the MCP tools clamp the requested count before the call —
`get_inbox_messages` to `[1, 50]` and `search_emails_tool` to `[1, 100]`
(in particular a request for 500 inbox messages issues the call with 50
and a request for 0 with 1) — but the CLI `inbox` subcommand passes the
requested count to the list call unclamped. -/
theorem C7_amended_clamping :
    (∀ (listInbox : Int → Except Err (List MsgRef)) (getMsg : String → Except Err Msg)
       (n : Int),
       GmailTools.get_inbox_messages listInbox getMsg n =
         GmailTools.get_inbox_messages_core listInbox getMsg (min (max 1 n) 50)) ∧
    (∀ (listMsgs : String → Int → Except Err (List MsgRef))
       (getMsg : String → Except Err Msg) (q : String) (n : Int),
       GmailTools.search_emails_tool listMsgs getMsg q n =
         GmailTools.search_emails_core listMsgs getMsg q (min (max 1 n) 100)) ∧
    GmailTools.get_inbox_messages (fun k => .error ⟨toString k⟩)
      (fun _ => .error ⟨""⟩) 500 = .error ⟨"50"⟩ ∧
    GmailTools.get_inbox_messages (fun k => .error ⟨toString k⟩)
      (fun _ => .error ⟨""⟩) 0 = .error ⟨"1"⟩ ∧
    GmailTools.search_emails_tool (fun _ k => .error ⟨toString k⟩)
      (fun _ => .error ⟨""⟩) "q" 500 = .error ⟨"100"⟩ ∧
    (∀ (l₁ l₂ : Int → Except Err (List MsgRef)) (getMsg : String → Except Err Msg)
       (n : Int), l₁ n = l₂ n →
       GmailCli.list_inbox l₁ getMsg n = GmailCli.list_inbox l₂ getMsg n) ∧
    GmailCli.list_inbox (fun k => .error ⟨toString k⟩) (fun _ => .error ⟨""⟩) 500 =
      ["Error listing inbox: 500"] := by
  refine ⟨fun l g n => rfl, fun l g q n => rfl, rfl, rfl, rfl,
    fun l₁ l₂ g n h => ?_, rfl⟩
  simp [GmailCli.list_inbox, h]

theorem C7_witness :
    ((fun k => (.error ⟨toString k⟩ : Except Err (List MsgRef))) (7 : Int) =
       (fun _ => (.error ⟨"7"⟩ : Except Err (List MsgRef))) (7 : Int)) ∧
    GmailCli.list_inbox (fun k => .error ⟨toString k⟩) (fun _ => .error ⟨""⟩) 7 =
      GmailCli.list_inbox (fun _ => .error ⟨"7"⟩) (fun _ => .error ⟨""⟩) 7 :=
  ⟨rfl,
   C7_amended_clamping.2.2.2.2.2.1 (fun k => .error ⟨toString k⟩)
     (fun _ => .error ⟨"7"⟩) (fun _ => .error ⟨""⟩) 7 rfl⟩

/-- C8: `add_label_to_message` resolves the label-name argument by
comparing lowercased names and taking the FIRST matching label's id; on
the spec's scenario — `"Work"` against `[{id: "L1", name: "work"}]` — it
resolves to `L1` and creates nothing (the create oracle is a failure, yet
the modification succeeds with `L1`); when no label matches, it
auto-creates a label with the requested name (not an error) and proceeds
with the created label's id. -/
theorem C8_label_resolution :
    (∀ (labels : List Label) (createLabel : String → Except Err Label)
       (modifyMsg : String → String → Except Err Unit)
       (message_id label_name : String) (l : Label),
       labels.find? (fun x => strLower x.name = strLower label_name) = some l →
       l.id ≠ "" →
       GmailTools.add_label_to_message (.ok labels) createLabel modifyMsg
           message_id label_name =
         .ok (GmailTools.applyModify modifyMsg (normalize_message_id message_id)
           label_name l.id)) ∧
    (∀ (labels : List Label) (createLabel : String → Except Err Label)
       (modifyMsg : String → String → Except Err Unit)
       (message_id label_name : String),
       labels.find? (fun x => strLower x.name = strLower label_name) = none →
       GmailTools.add_label_to_message (.ok labels) createLabel modifyMsg
           message_id label_name =
         (match createLabel label_name with
          | .ok created => .ok (GmailTools.applyModify modifyMsg
              (normalize_message_id message_id) label_name created.id)
          | .error e => .ok ("Error creating label: " ++ e.msg))) ∧
    GmailTools.add_label_to_message (.ok [⟨"L1", "work"⟩])
      (fun _ => .error ⟨"created"⟩)
      (fun _ lid => if lid = "L1" then .ok () else .error ⟨"wrong"⟩)
      "M1" "Work" = .ok "Label 'Work' added to message M1" := by
  refine ⟨fun labels createLabel modifyMsg message_id label_name l hfind hid => ?_,
    fun labels createLabel modifyMsg message_id label_name hfind => ?_, rfl⟩
  · simp [GmailTools.add_label_to_message, bind, Except.bind, hfind, hid, pure,
      Except.pure]
  · cases hc : createLabel label_name <;>
      simp [GmailTools.add_label_to_message, bind, Except.bind, hfind, hc, pure,
        Except.pure]

theorem C8_witness :
    (([⟨"L1", "work"⟩] : List Label).find?
        (fun x => strLower x.name = strLower "Work") = some ⟨"L1", "work"⟩ ∧
     ("L1" : String) ≠ "" ∧
     GmailTools.add_label_to_message (.ok [⟨"L1", "work"⟩])
        (fun _ => .error ⟨"created"⟩) (fun _ _ => .ok ()) "id_M1" "Work" =
       .ok (GmailTools.applyModify (fun _ _ => .ok ())
         (normalize_message_id "id_M1") "Work" "L1")) ∧
    (([] : List Label).find?
        (fun x => strLower x.name = strLower "Work") = none ∧
     GmailTools.add_label_to_message (.ok []) (fun n => .ok ⟨"L9", n⟩)
        (fun _ _ => .ok ()) "M2" "Work" =
       .ok (GmailTools.applyModify (fun _ _ => .ok ())
         (normalize_message_id "M2") "Work" "L9")) :=
  ⟨⟨by decide, by decide,
    C8_label_resolution.1 [⟨"L1", "work"⟩] (fun _ => .error ⟨"created"⟩)
      (fun _ _ => .ok ()) "id_M1" "Work" ⟨"L1", "work"⟩ (by decide) (by decide)⟩,
   ⟨by decide,
    C8_label_resolution.2.1 [] (fun n => .ok ⟨"L9", n⟩)
      (fun _ _ => .ok ()) "M2" "Work" (by decide)⟩⟩

/-- C9: with a persisted credential that is expired and carries a
(truthy) refresh token, and a refresh call that succeeds, `get_credentials`
of `gmail/auth.py` returns the refreshed credential and persists it to the
token file; the result holds for EVERY interactive-flow oracle — the flow
is never consulted. -/
theorem C9_refresh_success_persists (refresh : Cred → RefreshOutcome)
    (flow : Except AuthErr Cred) (st : AuthState) (c c' : Cred)
    (hstore : st.tokenFile = some c)
    (hexp : c.expired = true)
    (href : c.hasRefreshToken = true)
    (hrefresh : refresh c = .ok c') :
    GmailClient.get_credentials refresh flow st =
      (.ok c', { st with tokenFile := some c' }) := by
  have hvalid : c.valid = false := by
    simp [Cred.valid, hexp]
  simp [GmailClient.get_credentials, hstore, hvalid, hexp, href,
    GmailClient.safe_refresh_token, hrefresh]

theorem C9_witness :
    (AuthState.mk (some ⟨some "tok", true, some "rt"⟩)).tokenFile =
        some ⟨some "tok", true, some "rt"⟩ ∧
    (⟨some "tok", true, some "rt"⟩ : Cred).expired = true ∧
    (⟨some "tok", true, some "rt"⟩ : Cred).hasRefreshToken = true ∧
    GmailClient.get_credentials
        (fun _ => .ok ⟨some "tok2", false, some "rt"⟩)
        (.error (.exn "flow must not run"))
        (AuthState.mk (some ⟨some "tok", true, some "rt"⟩)) =
      (.ok ⟨some "tok2", false, some "rt"⟩,
       AuthState.mk (some ⟨some "tok2", false, some "rt"⟩)) :=
  ⟨rfl, rfl, by decide,
   C9_refresh_success_persists (fun _ => .ok ⟨some "tok2", false, some "rt"⟩)
     (.error (.exn "flow must not run"))
     (AuthState.mk (some ⟨some "tok", true, some "rt"⟩))
     ⟨some "tok", true, some "rt"⟩ ⟨some "tok2", false, some "rt"⟩
     rfl rfl (by decide) rfl⟩

/-- C1 fails as stated: `get_credentials` of `gmail_server.py` (one of the
two refresh paths the claim covers) calls `creds.refresh(Request())` with
no exception handling, so even the provider's distinct refresh-rejected
signal propagates to the caller, the persisted record stays on disk, no
interactive flow runs and no fresh credential is returned. -/
theorem C1_counterexample :
    GmailServer.get_credentials (fun _ => .refreshError "invalid_grant")
        (.ok ⟨some "fresh", false, some "rt2"⟩)
        (AuthState.mk (some ⟨some "tok", true, some "rt"⟩)) =
      (.error (.refreshRejected "invalid_grant"),
       AuthState.mk (some ⟨some "tok", true, some "rt"⟩)) := by
  rfl

/-- C1 amended: in `GmailClient` (`gmail/auth.py`) the claim holds as
stated — a refresh attempt failing with the provider's distinct
`RefreshError` deletes the persisted record and runs the full interactive
flow in its place (on flow success the fresh credential is persisted and
returned; on flow failure the record stays deleted), and every other
exception propagates to the caller with the record unchanged on disk —
while in `gmail_server.py`'s `get_credentials` EVERY refresh failure,
the `RefreshError` included, propagates to the caller with the record
unchanged. -/
theorem C1_amended_refresh_failure_policy :
    (∀ (refresh : Cred → RefreshOutcome) (st : AuthState) (c fresh : Cred) (m : String),
       st.tokenFile = some c → c.expired = true → c.hasRefreshToken = true →
       refresh c = .refreshError m →
       GmailClient.get_credentials refresh (.ok fresh) st =
         (.ok fresh, AuthState.mk (some fresh))) ∧
    (∀ (refresh : Cred → RefreshOutcome) (st : AuthState) (c : Cred)
       (e : AuthErr) (m : String),
       st.tokenFile = some c → c.expired = true → c.hasRefreshToken = true →
       refresh c = .refreshError m →
       GmailClient.get_credentials refresh (.error e) st =
         (.error e, AuthState.mk none)) ∧
    (∀ (refresh : Cred → RefreshOutcome) (flow : Except AuthErr Cred)
       (st : AuthState) (c : Cred) (m : String),
       st.tokenFile = some c → c.expired = true → c.hasRefreshToken = true →
       refresh c = .otherError m →
       GmailClient.get_credentials refresh flow st = (.error (.exn m), st)) ∧
    (∀ (refresh : Cred → RefreshOutcome) (flow : Except AuthErr Cred)
       (st : AuthState) (c : Cred) (m : String),
       st.tokenFile = some c → c.expired = true → c.hasRefreshToken = true →
       refresh c = .refreshError m →
       GmailServer.get_credentials refresh flow st =
         (.error (.refreshRejected m), st)) ∧
    (∀ (refresh : Cred → RefreshOutcome) (flow : Except AuthErr Cred)
       (st : AuthState) (c : Cred) (m : String),
       st.tokenFile = some c → c.expired = true → c.hasRefreshToken = true →
       refresh c = .otherError m →
       GmailServer.get_credentials refresh flow st = (.error (.exn m), st)) := by
  refine ⟨fun refresh st c fresh m hstore hexp href hrefresh => ?_,
    fun refresh st c e m hstore hexp href hrefresh => ?_,
    fun refresh flow st c m hstore hexp href hrefresh => ?_,
    fun refresh flow st c m hstore hexp href hrefresh => ?_,
    fun refresh flow st c m hstore hexp href hrefresh => ?_⟩ <;>
  · have hvalid : c.valid = false := by simp [Cred.valid, hexp]
    simp [GmailClient.get_credentials, GmailServer.get_credentials,
      GmailClient.safe_refresh_token, hstore, hvalid, hexp, href, hrefresh]

theorem C1_witness :
    (AuthState.mk (some ⟨some "tok", true, some "rt"⟩)).tokenFile =
        some ⟨some "tok", true, some "rt"⟩ ∧
    (⟨some "tok", true, some "rt"⟩ : Cred).expired = true ∧
    (⟨some "tok", true, some "rt"⟩ : Cred).hasRefreshToken = true ∧
    (fun _ : Cred => (.refreshError "invalid_grant" : RefreshOutcome))
        ⟨some "tok", true, some "rt"⟩ = .refreshError "invalid_grant" ∧
    GmailClient.get_credentials (fun _ => .refreshError "invalid_grant")
        (.ok ⟨some "fresh", false, some "rt2"⟩)
        (AuthState.mk (some ⟨some "tok", true, some "rt"⟩)) =
      (.ok ⟨some "fresh", false, some "rt2"⟩,
       AuthState.mk (some ⟨some "fresh", false, some "rt2"⟩)) :=
  ⟨rfl, rfl, by decide, rfl,
   C1_amended_refresh_failure_policy.1 (fun _ => .refreshError "invalid_grant")
     (AuthState.mk (some ⟨some "tok", true, some "rt"⟩))
     ⟨some "tok", true, some "rt"⟩ ⟨some "fresh", false, some "rt2"⟩
     "invalid_grant" rfl rfl (by decide) rfl⟩
